import Mathlib

/-
  Verification development for the World of Books crawl-and-extract pipeline
  (worldofbooks_scraper.py).

  Shallow embedding conventions:
  * DOM contents and every value produced by the external browsing capability
    (page.evaluate results, query_selector text, navigation status) are oracle
    inputs, collected in ItemEnv / LinkEnv / PageEnv / RunEnv.  The logic the
    repository itself ships (the Python control flow and the regular
    expressions run against page text) is translated into executable Lean
    functions over those inputs.
  * Option String models a value that may be absent (Python None / JS null).
    A present empty string models a present falsy string, since Python
    truthiness distinguishes None from the empty string only in that both
    are falsy; where the source tests truthiness, the embedding tests for
    none and for the empty string.
  * Python floats produced by formatting the euro and cent digit groups are
    modeled as exact rationals euros + cents/100; the claims only concern two-decimal values.
  * Python hash(url) is salted per process (PYTHONHASHSEED): its value is a
    function of the interpreter run.  It is therefore modeled as an explicit
    parameter h : String → Int supplied by the run environment; one fixed h
    corresponds to one program run.
  * Machine effects are made observable through an event trace: Ev.nav u is
    recorded when the scraper navigates to an item page, Ev.persist r when a
    record is handed to the persistence collaborator (add_book).
-/

namespace WobScraper

/-- Digits of a decimal numeral to a natural number (models int/float parsing
of an all-digit group). -/
def natOfDigits (cs : List Char) : Nat :=
  cs.foldl (fun n c => n * 10 + (c.toNat - 48)) 0

/-- Python url.strip(slash): remove leading and trailing slash characters. -/
def stripSlash (s : String) : String :=
  String.mk (((s.data.dropWhile (fun c => c = '/')).reverse.dropWhile
      (fun c => c = '/')).reverse)

/-- Python text.split(sep) for a single-character separator, on char lists:
always returns at least one (possibly empty) part. -/
def splitChar (sep : Char) : List Char → List (List Char)
  | [] => [[]]
  | c :: t =>
    if c = sep then [] :: splitChar sep t
    else
      match splitChar sep t with
      | g :: gs => (c :: g) :: gs
      | [] => [[c]]

/-- The final path segment the scraper inspects:
url.strip(slash).split(slash)[-1]. -/
def finalSegment (url : String) : List Char :=
  (splitChar '/' (stripSlash url).data).getLastD []

/-- Model of _extract_sku_from_url: the last segment of the stripped URL counts as a
SKU only when it is non-empty and longer than 5 characters. -/
def extract_sku_from_url (url : String) : Option String :=
  match (splitChar '/' (stripSlash url).data).getLast? with
  | some p => if p ≠ [] ∧ 5 < p.length then some (String.mk p) else none
  | none => none

/-- Zero-padded 7-wide decimal rendering, Python format spec 07d for values
below 10^7. -/
def padZero7 (n : Nat) : String :=
  let s := toString n
  String.mk (List.replicate (7 - s.length) '0' ++ s.data)

/-- The fallback SKU synthesis: the prefix WOB- followed by hash(url) mod
10^7 zero-padded to width 7.  The parameter
h stands for the hash function of one interpreter run (Python str hashing is
salted per process, so h varies between runs of the program). -/
def fallback_sku (h : String → Int) (url : String) : String :=
  "WOB-" ++ padZero7 ((h url).emod 10000000).toNat

/-- Everything the item-page capability can report to scrape_book and the
field extractors.  Each field is the oracle value of one capability call
against the loaded item page. -/
structure ItemEnv where
  /-- new_page succeeded -/
  pageOk : Bool
  /-- navigation returned a response with ok status -/
  navOk : Bool
  /-- an exception escapes the extraction block (e.g. the unguarded image
  evaluation); caught at the end of scrape_book -/
  raises : Bool
  /-- the sku page-evaluation result (selector, structured data, or free-text
  tiers all run inside the page script); none models null or a script error -/
  pageSku : Option String
  /-- stripped text of h1.product__title, none when absent -/
  title : Option String
  /-- stripped text of .product-author -/
  author : Option String
  /-- stripped text of .price-item--regular -/
  priceText : Option String
  /-- stripped text of .product-condition-text -/
  condition : Option String
  /-- text content of the .product-details-wrapper container, none when the
  container is absent -/
  detailsText : Option String
  /-- the isbn field of a parsed JSON-LD payload when present and truthy -/
  jsonIsbn : Option String
  /-- document.body text content -/
  bodyText : String
  /-- the isbn page-evaluation call itself raised (caught, yields none) -/
  isbnEvalFails : Bool
  /-- result of the binding page evaluation (script output; not examined by
  any claim) -/
  binding : Option String
  /-- publisher reported by the publication-details evaluation -/
  publisher : Option String
  /-- publication year reported by the publication-details evaluation -/
  pubYear : Option String
  /-- stripped text of .product__description -/
  description : Option String
  /-- src of the first product media image -/
  imageUrl : Option String

/-- The flat record scrape_book assembles and add_book receives. -/
structure BookData where
  title : String
  author : String
  isbn : Option String
  sku : String
  wob_price : Option ℚ
  wob_url : String
  condition : Option String
  binding : Option String
  publisher : Option String
  publication_year : Option String
  description : Option String
  image_url : Option String
  category : Option String
  subcategory : Option String
deriving DecidableEq

/-- Greedy digit run: the maximal leading block of decimal digits and the
remainder. -/
def digitSpan : List Char → List Char × List Char
  | [] => ([], [])
  | c :: t =>
    if c.isDigit then
      let r := digitSpan t
      (c :: r.1, r.2)
    else ([], c :: t)

/-- The optional currency prefix: one euro sign is consumed when present. -/
def dropEuro (cs : List Char) : List Char :=
  match cs with
  | c :: t => if c = '€' then t else c :: t
  | [] => []

/-- One attempt of the first price pattern (optional euro sign, digits, a dot,
exactly two digits) at a fixed start position; yields the euro and cent digit
groups of group 1. -/
def price1At (cs : List Char) : Option (String × String) :=
  let sp := digitSpan (dropEuro cs)
  if sp.1 = [] then none
  else match sp.2 with
    | '.' :: a :: b :: _ =>
      if a.isDigit ∧ b.isDigit then some (String.mk sp.1, String.mk [a, b])
      else none
    | _ => none

/-- Leftmost search for the first price pattern. -/
def search1 : List Char → Option (String × String)
  | [] => none
  | c :: t =>
    match price1At (c :: t) with
    | some r => some r
    | none => search1 t

/-- One attempt of the second price pattern (digits, optional dot, optional
two-digit cents group) at a fixed start position. -/
def price2At (cs : List Char) : Option (String × Option String) :=
  let sp := digitSpan cs
  if sp.1 = [] then none
  else
    let rest2 := match sp.2 with
      | '.' :: t => t
      | _ => sp.2
    match rest2 with
    | a :: b :: _ =>
      if a.isDigit ∧ b.isDigit then some (String.mk sp.1, some (String.mk [a, b]))
      else some (String.mk sp.1, none)
    | _ => some (String.mk sp.1, none)

/-- Leftmost search for the second price pattern. -/
def search2 : List Char → Option (String × Option String)
  | [] => none
  | c :: t =>
    match price2At (c :: t) with
    | some r => some r
    | none => search2 t

/-- The float built from the euro and cent digit groups, as an exact
rational. -/
def ratOfParts (e c : String) : ℚ :=
  (natOfDigits e.data : ℚ) + (natOfDigits c.data : ℚ) / 100

/-- Model of _extract_price: None for an absent or falsy input; else the first
currency-optional amount with exactly two decimals; else a bare number whose
absent cents group defaults to 00; else None. -/
def extract_price (priceText : Option String) : Option ℚ :=
  match priceText with
  | none => none
  | some t =>
    if t = "" then none
    else
      match search1 t.data with
      | some (e, c) => some (ratOfParts e c)
      | none =>
        match search2 t.data with
        | some (e, c) => some (ratOfParts e (c.getD "00"))
        | none => none

/-- The character class matched by colon-or-whitespace between the ISBN
keyword and the number (ASCII whitespace of the script runtime). -/
def wsOrColon (c : Char) : Bool :=
  c = ':' || c = ' ' || c = '\t' || c = '\n' || c = '\r' ||
  c = Char.ofNat 11 || c = Char.ofNat 12

/-- First ISBN alternative: 978 or 979 followed by ten digits. -/
def isbn13At (cs : List Char) : Option (List Char) :=
  match cs with
  | c1 :: c2 :: c3 :: d1 :: d2 :: d3 :: d4 :: d5 :: d6 :: d7 :: d8 :: d9 :: d10 :: _ =>
    if c1 = '9' && c2 = '7' && (c3 = '8' || c3 = '9') &&
        [d1, d2, d3, d4, d5, d6, d7, d8, d9, d10].all Char.isDigit then
      some [c1, c2, c3, d1, d2, d3, d4, d5, d6, d7, d8, d9, d10]
    else none
  | _ => none

/-- Second ISBN alternative: nine digits and a digit or X (case-insensitive
flag also admits lowercase x). -/
def isbn10At (cs : List Char) : Option (List Char) :=
  match cs with
  | d1 :: d2 :: d3 :: d4 :: d5 :: d6 :: d7 :: d8 :: d9 :: d10 :: _ =>
    if [d1, d2, d3, d4, d5, d6, d7, d8, d9].all Char.isDigit &&
        (d10.isDigit || d10 = 'X' || d10 = 'x') then
      some [d1, d2, d3, d4, d5, d6, d7, d8, d9, d10]
    else none
  | _ => none

/-- The captured group of the ISBN pattern: the 13-digit alternative is tried
before the 10-character one. -/
def isbnNum (cs : List Char) : Option (List Char) :=
  match isbn13At cs with
  | some r => some r
  | none => isbn10At cs

/-- Rest of the ISBN keyword (sbn, case-insensitive) followed by any run of
colons and whitespace and then the number pattern. -/
def isbnKw (cs : List Char) : Option (List Char) :=
  match cs with
  | s :: b :: n :: rest =>
    if s.toLower = 's' && b.toLower = 'b' && n.toLower = 'n' then
      isbnNum (rest.dropWhile wsOrColon)
    else none
  | _ => none

/-- One attempt of the full ISBN pattern at a fixed start position; the first
character must be the keyword letter i. -/
def isbnAt (cs : List Char) : Option (List Char) :=
  match cs with
  | c :: rest => if c.toLower = 'i' then isbnKw rest else none
  | [] => none

/-- Leftmost search of the ISBN pattern. -/
def isbnSearch : List Char → Option (List Char)
  | [] => none
  | c :: t =>
    match isbnAt (c :: t) with
    | some r => some r
    | none => isbnSearch t

/-- Scan a text for the ISBN pattern, returning the captured group. -/
def isbnScan (t : String) : Option String :=
  (isbnSearch t.data).map String.mk

/-- The re.sub step removing every character that is not a digit and not an uppercase
X (the substitution is case-sensitive). -/
def stripNonIsbn (s : String) : String :=
  String.mk (s.data.filter (fun c => c.isDigit || c = 'X'))

/-- The tier chain of the isbn page script: details-container scan, then the
structured-data isbn field, then a full body-text scan. -/
def isbnRaw (env : ItemEnv) : Option String :=
  match (match env.detailsText with
         | some t => isbnScan t
         | none => none) with
  | some r => some r
  | none =>
    match env.jsonIsbn with
    | some j => some j
    | none => isbnScan env.bodyText

/-- Model of _extract_isbn: the tier chain, with a non-null result stripped to digits
and X.  A raised capability call is caught and yields none. -/
def extract_isbn (env : ItemEnv) : Option String :=
  if env.isbnEvalFails then none
  else (isbnRaw env).map stripNonIsbn

/-- Model of _extract_sku: URL segment tier, then the page-evaluation tier (a falsy
result falls through), then the deterministic-within-a-run hash fallback. -/
def extract_sku (h : String → Int) (env : ItemEnv) (url : String) : String :=
  match extract_sku_from_url url with
  | some s => s
  | none =>
    match env.pageSku with
    | some s => if s = "" then fallback_sku h url else s
    | none => fallback_sku h url

/-- Observable effects of the crawl: navigating to an item page, and handing
a record to the persistence collaborator. -/
inductive Ev where
  | nav (url : String)
  | persist (record : BookData)
deriving DecidableEq

/-- Python author or Unknown: absent or falsy author becomes the sentinel. -/
def orUnknown : Option String → String
  | some a => if a = "" then "Unknown" else a
  | none => "Unknown"

/-- The record scrape_book builds once navigation and the extraction block
succeed and a truthy title is present; none otherwise. -/
def scrape_book_data (h : String → Int) (env : ItemEnv) (url : String) :
    Option BookData :=
  if env.navOk = false then none
  else if env.raises then none
  else
    let sku := extract_sku h env url
    match env.title with
    | none => none
    | some t =>
      if t = "" then none
      else
        some { title := t
             , author := orUnknown env.author
             , isbn := extract_isbn env
             , sku := sku
             , wob_price := extract_price env.priceText
             , wob_url := url
             , condition := env.condition
             , binding := env.binding
             , publisher := env.publisher
             , publication_year := env.pubYear
             , description := env.description
             , image_url := env.imageUrl
             , category := none
             , subcategory := none }

/-- scrape_book with its event trace: a failed page creation navigates
nowhere; otherwise exactly one navigation to the item URL is attempted. -/
def scrape_book (h : String → Int) (env : ItemEnv) (url : String) :
    Option BookData × List Ev :=
  if env.pageOk = false then (none, [])
  else (scrape_book_data h env url, [Ev.nav url])

/-- One discovered link with the oracle answers the run observes for it. -/
structure LinkEnv where
  url : String
  /-- Modelled from the spec: the verdict of the dedup gate
  (database.get_book_by_sku, a repository module outside src) for the
  URL-derived SKU — whether findByIdentifier reports the identifier as
  already ingested. -/
  inDb : Bool
  item : ItemEnv
  /-- Modelled from the spec: the outcome of the persistence insert
  (database.add_book, a repository module outside src) — some id on
  success, none for a falsy result such as an absorbed duplicate-key
  rejection. -/
  addResult : Option Nat

/-- Final counters of a run plus the recorded event trace. -/
structure RunRes where
  scraped : Nat
  skipped : Nat
  trace : List Ev
deriving DecidableEq

/-- Prefix already-emitted events onto the result of the remaining run. -/
def prependEv (evs : List Ev) (r : RunRes) : RunRes :=
  ⟨r.scraped, r.skipped, evs ++ r.trace⟩

/-- The category tagging book_data.update performs before add_book. -/
def tagRecord (bd : BookData) : BookData :=
  { bd with category := some "Rare Non-Fiction", subcategory := none }

/-- The pre-visit dedup condition of the item loop: a SKU was derived from
the URL and the gate reports it known. -/
def gateHit (l : LinkEnv) : Bool :=
  match extract_sku_from_url l.url with
  | some _ => l.inDb
  | none => false

/-- The for-loop over the links of one listing page: budget check, dedup
gate, scrape, truthy-title check, add_book, counter updates. -/
def processLinks (h : String → Int) :
    List LinkEnv → Nat → Nat → Nat → RunRes
  | [], _, s, k => ⟨s, k, []⟩
  | l :: rest, m, s, k =>
    if m ≤ s then ⟨s, k, []⟩
    else if gateHit l then processLinks h rest m s (k + 1)
    else
      match (scrape_book h l.item l.url).1 with
      | some bd =>
        if bd.title = "" then
          prependEv (scrape_book h l.item l.url).2 (processLinks h rest m s k)
        else
          match l.addResult with
          | some _ =>
            prependEv ((scrape_book h l.item l.url).2 ++ [Ev.persist (tagRecord bd)])
              (processLinks h rest m (s + 1) k)
          | none =>
            prependEv ((scrape_book h l.item l.url).2 ++ [Ev.persist (tagRecord bd)])
              (processLinks h rest m s k)
      | none => prependEv (scrape_book h l.item l.url).2 (processLinks h rest m s k)

/-- One listing page as the capability reports it: the navigation response
(none models goto returning None, some carries the ok status) and the
discovered links (empty on script failure or an exhausted catalog). -/
structure PageEnv where
  resp : Option Bool
  links : List LinkEnv

/-- The listing URL for a page index: page 1 is bare; later pages append the
page parameter with the separator chosen by the presence of a query. -/
def page_url (target : String) (n : Nat) : String :=
  if 1 < n then
    if target.contains '?' then target ++ "&page=" ++ toString n
    else target ++ "?page=" ++ toString n
  else target

/-- The pagination while-loop: stops at the budget, a failed or non-ok
listing load, or an empty link list; otherwise runs the item loop and, if the
budget is still open, moves to the next page. -/
def processPages (h : String → Int) :
    List PageEnv → Nat → Nat → Nat → RunRes
  | [], _, s, k => ⟨s, k, []⟩
  | p :: rest, m, s, k =>
    if m ≤ s then ⟨s, k, []⟩
    else
      match p.resp with
      | none => ⟨s, k, []⟩
      | some ok =>
        if ok = false then ⟨s, k, []⟩
        else if p.links.isEmpty then ⟨s, k, []⟩
        else if (processLinks h p.links m s k).scraped < m then
          prependEv (processLinks h p.links m s k).trace
            (processPages h rest m (processLinks h p.links m s k).scraped
              (processLinks h p.links m s k).skipped)
        else processLinks h p.links m s k

/-- Everything one invocation observes: browser and page initialization,
the hash function of this interpreter run, and the listing pages the site
serves in order (an exhausted environment behaves as a terminal listing-load
failure). -/
structure RunEnv where
  browserOk : Bool
  newPageOk : Bool
  hashF : String → Int
  pages : List PageEnv

/-- scrape_new_arrivals with the full final state: failed initialization
returns zero counters without entering the loop. -/
def scrape_run (env : RunEnv) (max_books : Nat) : RunRes :=
  if env.browserOk = false then ⟨0, 0, []⟩
  else if env.newPageOk = false then ⟨0, 0, []⟩
  else processPages env.hashF env.pages max_books 0 0

/-- The value scrape_new_arrivals actually returns: the accepted count. -/
def scrape_new_arrivals (env : RunEnv) (max_books : Nat) : Nat :=
  (scrape_run env max_books).scraped

/-- A link on which every stage succeeds: the gate passes, scraping yields a
record with a truthy title, and add_book returns an id. -/
def goodLink (h : String → Int) (l : LinkEnv) : Bool :=
  (match extract_sku_from_url l.url with
   | some _ => !l.inDb
   | none => true) &&
  (match (scrape_book h l.item l.url).1 with
   | some bd => bd.title != ""
   | none => false) &&
  l.addResult.isSome

/-- A baseline item page: creation and navigation succeed, every extractable
field is absent. -/
def itemPlain : ItemEnv :=
  { pageOk := true, navOk := true, raises := false, pageSku := none
  , title := none, author := none, priceText := none, condition := none
  , detailsText := none, jsonIsbn := none, bodyText := ""
  , isbnEvalFails := false, binding := none, publisher := none
  , pubYear := none, description := none, imageUrl := none }

/-- An item page carrying only a title. -/
def itemTitled : ItemEnv := { itemPlain with title := some "Tome" }

/-- An item page whose details text carries a 10-character ISBN match before
the canonical 13-digit one. -/
def itemTwoIsbn : ItemEnv :=
  { itemPlain with
    detailsText := some "ISBN: 1234567890 and ISBN: 9781234567890" }

/-- An item URL whose final path segment is longer than 5 characters. -/
def urlLong : String := "https://www.wob.com/en-ie/books/abcdef9"

/-- A listing URL used as hash-fallback input. -/
def urlPlain : String := "https://www.wob.com/en-ie/collections/rare-books"

/-- One listing page with a single link that extracts a titled record but is
rejected by the persistence collaborator (add_book returns no id). -/
def envRejected : RunEnv :=
  ⟨true, true, fun _ => 0, [⟨some true, [⟨urlLong, false, itemTitled, none⟩]⟩]⟩

/-- The record handed to add_book in the envRejected run. -/
def recRejected : BookData :=
  { title := "Tome", author := "Unknown", isbn := none, sku := "abcdef9"
  , wob_price := none, wob_url := urlLong, condition := none, binding := none
  , publisher := none, publication_year := none, description := none
  , image_url := none, category := some "Rare Non-Fiction"
  , subcategory := none }

/-- One listing page with a single link whose URL-derived SKU the gate
reports as known: the run counts one skip and accepts nothing. -/
def envOneDup : RunEnv :=
  ⟨true, true, fun _ => 0, [⟨some true, [⟨urlLong, true, itemTitled, none⟩]⟩]⟩

/-- One listing page with no links: the run ends at once with zero counters. -/
def envNoLinks : RunEnv := ⟨true, true, fun _ => 0, [⟨some true, []⟩]⟩

/-- Two links that fully succeed, used against a budget of one. -/
def linkGoodA : LinkEnv := ⟨urlLong, false, itemTitled, some 7⟩

/-- A second fully succeeding link with a distinct URL. -/
def linkGoodB : LinkEnv :=
  ⟨"https://www.wob.com/en-ie/books/zyxwvu8", false, itemTitled, some 8⟩

/-- A link whose URL-derived SKU the dedup gate reports as already known. -/
def linkDup : LinkEnv := ⟨urlLong, true, itemTitled, none⟩

/-- A link whose item-page navigation fails, so the extractor yields no
record. -/
def linkNavFail : LinkEnv :=
  ⟨urlLong, false, { itemPlain with navOk := false }, none⟩

/-- A link whose URL has a final segment of 5 characters (too short for the
URL SKU tier) and whose item page carries a SKU the store already knows. -/
def linkShortSeg : LinkEnv :=
  ⟨"https://www.wob.com/en-ie/books/abc12", false,
   { itemTitled with pageSku := some "KNOWN-SKU-1" }, some 9⟩

/-- The single link of the envRejected run. -/
def linkRejected : LinkEnv := ⟨urlLong, false, itemTitled, none⟩

/-- The record scrape_book yields for itemTitled at urlLong, before the
category tagging of the orchestrator. -/
def bdTitled : BookData :=
  { title := "Tome", author := "Unknown", isbn := none, sku := "abcdef9"
  , wob_price := none, wob_url := urlLong, condition := none, binding := none
  , publisher := none, publication_year := none, description := none
  , image_url := none, category := none, subcategory := none }

/-- An item page whose details text is the canonical ISBN sentence preceded
by harmless text. -/
def itemPreIsbn : ItemEnv :=
  { itemPlain with detailsText := some "Code ISBN: 9781234567890 end" }

/- ------------------------------------------------------------------ -/
/- Helper lemmas about the embedding.                                  -/
/- ------------------------------------------------------------------ -/

@[simp] lemma prependEv_scraped (e : List Ev) (r : RunRes) :
    (prependEv e r).scraped = r.scraped := rfl

@[simp] lemma prependEv_skipped (e : List Ev) (r : RunRes) :
    (prependEv e r).skipped = r.skipped := rfl

@[simp] lemma prependEv_trace (e : List Ev) (r : RunRes) :
    (prependEv e r).trace = e ++ r.trace := rfl

@[simp] lemma tagRecord_title (bd : BookData) :
    (tagRecord bd).title = bd.title := rfl

lemma scrape_book_snd_mem {h : String → Int} {env : ItemEnv} {url : String}
    {e : Ev} (he : e ∈ (scrape_book h env url).2) : e = Ev.nav url := by
  by_cases hp : env.pageOk = false
  · simp [scrape_book, hp] at he
  · simpa [scrape_book, hp] using he

lemma gateHit_false {l : LinkEnv}
    (hg : extract_sku_from_url l.url = none ∨ l.inDb = false) :
    gateHit l = false := by
  unfold gateHit
  rcases hg with h | h
  · simp [h]
  · cases hq : extract_sku_from_url l.url <;> simp [h]

lemma pl_stop {h : String → Int} (l : LinkEnv) (rest : List LinkEnv)
    {m s k : Nat} (hms : m ≤ s) :
    processLinks h (l :: rest) m s k = ⟨s, k, []⟩ := by
  rw [processLinks]; simp [hms]

lemma pl_skip {h : String → Int} {l : LinkEnv} {rest : List LinkEnv}
    {m s k : Nat} (hms : ¬ m ≤ s) (hg : gateHit l = true) :
    processLinks h (l :: rest) m s k = processLinks h rest m s (k + 1) := by
  rw [processLinks]; simp [hms, hg]

lemma pl_fail {h : String → Int} {l : LinkEnv} {rest : List LinkEnv}
    {m s k : Nat} (hms : ¬ m ≤ s) (hg : gateHit l = false)
    (hf : (scrape_book h l.item l.url).1 = none) :
    processLinks h (l :: rest) m s k =
      prependEv (scrape_book h l.item l.url).2 (processLinks h rest m s k) := by
  rw [processLinks]; simp [hms, hg, hf]

lemma pl_titleEmpty {h : String → Int} {l : LinkEnv} {rest : List LinkEnv}
    {m s k : Nat} {bd : BookData} (hms : ¬ m ≤ s) (hg : gateHit l = false)
    (hb : (scrape_book h l.item l.url).1 = some bd) (ht : bd.title = "") :
    processLinks h (l :: rest) m s k =
      prependEv (scrape_book h l.item l.url).2 (processLinks h rest m s k) := by
  rw [processLinks]; simp [hms, hg, hb, ht]

lemma pl_accept {h : String → Int} {l : LinkEnv} {rest : List LinkEnv}
    {m s k : Nat} {bd : BookData} {i : Nat} (hms : ¬ m ≤ s)
    (hg : gateHit l = false)
    (hb : (scrape_book h l.item l.url).1 = some bd) (ht : ¬ bd.title = "")
    (ha : l.addResult = some i) :
    processLinks h (l :: rest) m s k =
      prependEv ((scrape_book h l.item l.url).2 ++ [Ev.persist (tagRecord bd)])
        (processLinks h rest m (s + 1) k) := by
  rw [processLinks]; simp [hms, hg, hb, ht, ha]

lemma pl_reject {h : String → Int} {l : LinkEnv} {rest : List LinkEnv}
    {m s k : Nat} {bd : BookData} (hms : ¬ m ≤ s) (hg : gateHit l = false)
    (hb : (scrape_book h l.item l.url).1 = some bd) (ht : ¬ bd.title = "")
    (ha : l.addResult = none) :
    processLinks h (l :: rest) m s k =
      prependEv ((scrape_book h l.item l.url).2 ++ [Ev.persist (tagRecord bd)])
        (processLinks h rest m s k) := by
  rw [processLinks]; simp [hms, hg, hb, ht, ha]

lemma pp_stop {h : String → Int} (p : PageEnv) (rest : List PageEnv)
    {m s k : Nat} (hms : m ≤ s) :
    processPages h (p :: rest) m s k = ⟨s, k, []⟩ := by
  rw [processPages]; simp [hms]

lemma pp_step {h : String → Int} {p : PageEnv} {rest : List PageEnv}
    {m s k : Nat} (hms : ¬ m ≤ s) (hr : p.resp = some true)
    (hl : p.links.isEmpty = false)
    (hlt : (processLinks h p.links m s k).scraped < m) :
    processPages h (p :: rest) m s k =
      prependEv (processLinks h p.links m s k).trace
        (processPages h rest m (processLinks h p.links m s k).scraped
          (processLinks h p.links m s k).skipped) := by
  rw [processPages]; simp [hms, hr, hl, hlt]

lemma pp_full {h : String → Int} {p : PageEnv} {rest : List PageEnv}
    {m s k : Nat} (hms : ¬ m ≤ s) (hr : p.resp = some true)
    (hl : p.links.isEmpty = false)
    (hlt : ¬ (processLinks h p.links m s k).scraped < m) :
    processPages h (p :: rest) m s k = processLinks h p.links m s k := by
  rw [processPages]; simp [hms, hr, hl, hlt]

lemma pl_scraped_le {h : String → Int} (ls : List LinkEnv) {m : Nat}
    (s k : Nat) (hs : s ≤ m) : (processLinks h ls m s k).scraped ≤ m := by
  induction ls generalizing s k with
  | nil => simpa [processLinks] using hs
  | cons l rest ih =>
    by_cases hms : m ≤ s
    · rw [pl_stop l rest hms]; exact hs
    · by_cases hg : gateHit l = true
      · rw [pl_skip hms hg]; exact ih s (k + 1) hs
      · have hg' : gateHit l = false := by simpa using hg
        cases hb : (scrape_book h l.item l.url).1 with
        | none => rw [pl_fail hms hg' hb]; simpa using ih s k hs
        | some bd =>
          by_cases ht : bd.title = ""
          · rw [pl_titleEmpty hms hg' hb ht]; simpa using ih s k hs
          · cases ha : l.addResult with
            | none => rw [pl_reject hms hg' hb ht ha]; simpa using ih s k hs
            | some i =>
              rw [pl_accept hms hg' hb ht ha]
              simpa using ih (s + 1) k (by omega)

lemma pp_scraped_le {h : String → Int} (ps : List PageEnv) {m : Nat}
    (s k : Nat) (hs : s ≤ m) : (processPages h ps m s k).scraped ≤ m := by
  induction ps generalizing s k with
  | nil => simpa [processPages] using hs
  | cons p rest ih =>
    by_cases hms : m ≤ s
    · rw [pp_stop p rest hms]; exact hs
    · cases hr : p.resp with
      | none => rw [processPages]; simp [hms, hr]; exact hs
      | some ok =>
        cases ok with
        | false => rw [processPages]; simp [hms, hr]; exact hs
        | true =>
          cases hl : p.links.isEmpty with
          | true => rw [processPages]; simp [hms, hr, hl]; exact hs
          | false =>
            by_cases hlt : (processLinks h p.links m s k).scraped < m
            · rw [pp_step hms hr hl hlt]
              simpa using ih _ _ (Nat.le_of_lt hlt)
            · rw [pp_full hms hr hl hlt]
              exact pl_scraped_le p.links s k hs

lemma pl_nav_mem {h : String → Int} {ls : List LinkEnv} {m s k : Nat}
    {u : String} (hm : Ev.nav u ∈ (processLinks h ls m s k).trace) :
    ∃ l ∈ ls, l.url = u := by
  induction ls generalizing s k with
  | nil => simp [processLinks] at hm
  | cons l rest ih =>
    by_cases hms : m ≤ s
    · rw [pl_stop l rest hms] at hm; simp at hm
    · by_cases hg : gateHit l = true
      · rw [pl_skip hms hg] at hm
        obtain ⟨l', hl', hu⟩ := ih hm
        exact ⟨l', List.mem_cons_of_mem _ hl', hu⟩
      · have hg' : gateHit l = false := by simpa using hg
        have hhere : Ev.nav u = Ev.nav l.url → ∃ x ∈ l :: rest, x.url = u := by
          intro he
          refine ⟨l, List.mem_cons_self l rest, ?_⟩
          cases he; rfl
        have hrest : Ev.nav u ∈ (processLinks h rest m s k).trace ∨
            Ev.nav u ∈ (processLinks h rest m (s + 1) k).trace →
            ∃ x ∈ l :: rest, x.url = u := by
          rintro (hin | hin) <;>
            obtain ⟨l', hl', hu⟩ := ih hin <;>
            exact ⟨l', List.mem_cons_of_mem _ hl', hu⟩
        cases hb : (scrape_book h l.item l.url).1 with
        | none =>
          rw [pl_fail hms hg' hb] at hm
          rcases List.mem_append.1 hm with hin | hin
          · exact hhere (scrape_book_snd_mem hin)
          · exact hrest (Or.inl hin)
        | some bd =>
          by_cases ht : bd.title = ""
          · rw [pl_titleEmpty hms hg' hb ht] at hm
            rcases List.mem_append.1 hm with hin | hin
            · exact hhere (scrape_book_snd_mem hin)
            · exact hrest (Or.inl hin)
          · cases ha : l.addResult with
            | none =>
              rw [pl_reject hms hg' hb ht ha] at hm
              rcases List.mem_append.1 hm with hin | hin
              · rcases List.mem_append.1 hin with h1 | h2
                · exact hhere (scrape_book_snd_mem h1)
                · simp at h2
              · exact hrest (Or.inl hin)
            | some i =>
              rw [pl_accept hms hg' hb ht ha] at hm
              rcases List.mem_append.1 hm with hin | hin
              · rcases List.mem_append.1 hin with h1 | h2
                · exact hhere (scrape_book_snd_mem h1)
                · simp at h2
              · exact hrest (Or.inr hin)

lemma pl_persist_title {h : String → Int} {ls : List LinkEnv} {m s k : Nat}
    {bd : BookData} (hm : Ev.persist bd ∈ (processLinks h ls m s k).trace) :
    bd.title ≠ "" := by
  induction ls generalizing s k with
  | nil => simp [processLinks] at hm
  | cons l rest ih =>
    by_cases hms : m ≤ s
    · rw [pl_stop l rest hms] at hm; simp at hm
    · by_cases hg : gateHit l = true
      · rw [pl_skip hms hg] at hm; exact ih hm
      · have hg' : gateHit l = false := by simpa using hg
        have hnav : Ev.persist bd ∈ (scrape_book h l.item l.url).2 → False := by
          intro hin
          have := scrape_book_snd_mem hin
          simp at this
        cases hb : (scrape_book h l.item l.url).1 with
        | none =>
          rw [pl_fail hms hg' hb] at hm
          rcases List.mem_append.1 hm with hin | hin
          · exact absurd hin (fun hc => hnav hc)
          · exact ih hin
        | some bd' =>
          by_cases ht : bd'.title = ""
          · rw [pl_titleEmpty hms hg' hb ht] at hm
            rcases List.mem_append.1 hm with hin | hin
            · exact absurd hin (fun hc => hnav hc)
            · exact ih hin
          · have hhere : Ev.persist bd ∈ [Ev.persist (tagRecord bd')] →
                bd.title ≠ "" := by
              intro hin
              have hbd : bd = tagRecord bd' := by simpa using hin
              rw [hbd, tagRecord_title]; exact ht
            cases ha : l.addResult with
            | none =>
              rw [pl_reject hms hg' hb ht ha] at hm
              rcases List.mem_append.1 hm with hin | hin
              · rcases List.mem_append.1 hin with h1 | h2
                · exact absurd h1 (fun hc => hnav hc)
                · exact hhere h2
              · exact ih hin
            | some i =>
              rw [pl_accept hms hg' hb ht ha] at hm
              rcases List.mem_append.1 hm with hin | hin
              · rcases List.mem_append.1 hin with h1 | h2
                · exact absurd h1 (fun hc => hnav hc)
                · exact hhere h2
              · exact ih hin

lemma pp_persist_title {h : String → Int} {ps : List PageEnv} {m s k : Nat}
    {bd : BookData} (hm : Ev.persist bd ∈ (processPages h ps m s k).trace) :
    bd.title ≠ "" := by
  induction ps generalizing s k with
  | nil => simp [processPages] at hm
  | cons p rest ih =>
    by_cases hms : m ≤ s
    · rw [pp_stop p rest hms] at hm; simp at hm
    · cases hr : p.resp with
      | none => rw [processPages] at hm; simp [hms, hr] at hm
      | some ok =>
        cases ok with
        | false => rw [processPages] at hm; simp [hms, hr] at hm
        | true =>
          cases hl : p.links.isEmpty with
          | true => rw [processPages] at hm; simp [hms, hr, hl] at hm
          | false =>
            by_cases hlt : (processLinks h p.links m s k).scraped < m
            · rw [pp_step hms hr hl hlt] at hm
              rcases List.mem_append.1 hm with hin | hin
              · exact pl_persist_title hin
              · exact ih hin
            · rw [pp_full hms hr hl hlt] at hm
              exact pl_persist_title hm

lemma run_persist_title {env : RunEnv} {m : Nat} {bd : BookData}
    (hm : Ev.persist bd ∈ (scrape_run env m).trace) : bd.title ≠ "" := by
  unfold scrape_run at hm
  by_cases hb : env.browserOk = false
  · simp [hb] at hm
  · by_cases hp : env.newPageOk = false
    · simp [hb, hp] at hm
    · simp only [hb, hp, if_false, ite_false] at hm
      exact pp_persist_title (by simpa [hb, hp] using hm)

lemma goodLink_parts {h : String → Int} {l : LinkEnv}
    (hgl : goodLink h l = true) :
    gateHit l = false ∧
    (∃ bd, (scrape_book h l.item l.url).1 = some bd ∧ ¬ bd.title = "") ∧
    ∃ i, l.addResult = some i := by
  unfold goodLink at hgl
  rw [Bool.and_eq_true, Bool.and_eq_true] at hgl
  obtain ⟨⟨h1, h2⟩, h3⟩ := hgl
  refine ⟨?_, ?_, ?_⟩
  · unfold gateHit
    cases hq : extract_sku_from_url l.url with
    | none => rfl
    | some q => rw [hq] at h1; simpa using h1
  · cases hb : (scrape_book h l.item l.url).1 with
    | none => rw [hb] at h2; simp at h2
    | some bd =>
      rw [hb] at h2
      exact ⟨bd, rfl, by simpa using h2⟩
  · exact Option.isSome_iff_exists.1 h3

lemma pl_exact {h : String → Int} (ls : List LinkEnv) (m s k : Nat)
    (hgood : ls.all (goodLink h) = true) (hsm : s ≤ m)
    (hlen : m ≤ s + ls.length) :
    (processLinks h ls m s k).scraped = m ∧
    processLinks h ls m s k = processLinks h (ls.take (m - s)) m s k := by
  induction ls generalizing s k with
  | nil =>
    have : s = m := by simp at hlen; omega
    subst this
    exact ⟨rfl, by simp⟩
  | cons l rest ih =>
    rw [List.all_cons, Bool.and_eq_true] at hgood
    obtain ⟨hgl, hgrest⟩ := hgood
    by_cases hms : m ≤ s
    · have hs : s = m := Nat.le_antisymm hsm hms
      have hz : m - s = 0 := by omega
      rw [pl_stop l rest hms, hz]
      exact ⟨hs, by simp [processLinks, hs]⟩
    · obtain ⟨hg, ⟨bd, hb, ht⟩, i, ha⟩ := goodLink_parts hgl
      have hlen' : m ≤ s + 1 + rest.length := by
        simp only [List.length_cons] at hlen; omega
      have ih' := ih (s + 1) k hgrest (by omega) hlen'
      constructor
      · rw [pl_accept hms hg hb ht ha]; simpa using ih'.1
      · have htake : (l :: rest).take (m - s) = l :: rest.take (m - (s + 1)) := by
          have heq : m - s = (m - (s + 1)) + 1 := by omega
          rw [heq, List.take_succ_cons]
        rw [htake, pl_accept hms hg hb ht ha, pl_accept hms hg hb ht ha,
          ih'.2]

lemma digitSpan_fst_nil {c : Char} (t : List Char) (hc : c.isDigit = false) :
    digitSpan (c :: t) = ([], c :: t) := by
  simp [digitSpan, hc]

lemma no_digit_search (cs : List Char)
    (h : cs.all (fun c => !c.isDigit) = true) :
    search1 cs = none ∧ search2 cs = none := by
  induction cs with
  | nil => exact ⟨rfl, rfl⟩
  | cons c t ih =>
    rw [List.all_cons, Bool.and_eq_true] at h
    obtain ⟨h1, h2⟩ := h
    have hc : c.isDigit = false := by simpa using h1
    have hhead : (digitSpan (dropEuro (c :: t))).1 = [] := by
      by_cases he : c = '€'
      · subst he
        cases t with
        | nil => rfl
        | cons d t' =>
          rw [List.all_cons, Bool.and_eq_true] at h2
          have hde : dropEuro ('€' :: d :: t') = d :: t' := by
            simp [dropEuro]
          rw [hde, digitSpan_fst_nil t' (by simpa using h2.1)]
      · have hde : dropEuro (c :: t) = c :: t := by simp [dropEuro, he]
        rw [hde, digitSpan_fst_nil t hc]
    have hhead2 : (digitSpan (c :: t)).1 = [] := by
      rw [digitSpan_fst_nil t hc]
    obtain ⟨ih1, ih2⟩ := ih h2
    constructor
    · rw [search1]
      have : price1At (c :: t) = none := by
        unfold price1At
        simp [hhead]
      rw [this]; exact ih1
    · rw [search2]
      have : price2At (c :: t) = none := by
        unfold price2At
        simp [hhead2]
      rw [this]; exact ih2

lemma isbnSearch_append (pre r : List Char)
    (h : pre.all (fun c => !(c.toLower = 'i')) = true) :
    isbnSearch (pre ++ r) = isbnSearch r := by
  induction pre with
  | nil => simp
  | cons c t ih =>
    rw [List.all_cons, Bool.and_eq_true] at h
    obtain ⟨h1, h2⟩ := h
    have hc : ¬ c.toLower = 'i' := by simpa using h1
    rw [List.cons_append, isbnSearch]
    have hat : isbnAt (c :: (t ++ r)) = none := by simp [isbnAt, hc]
    rw [hat]
    exact ih h2

lemma isbnSearch_canon (post : List Char) :
    isbnSearch ("ISBN: 9781234567890".data ++ post) =
      some "9781234567890".data := by
  have hd : "ISBN: 9781234567890".data =
      'I' :: 'S' :: 'B' :: 'N' :: ':' :: ' ' :: '9' :: '7' :: '8' :: '1' ::
      '2' :: '3' :: '4' :: '5' :: '6' :: '7' :: '8' :: '9' :: '0' :: [] := rfl
  have hg : "9781234567890".data =
      '9' :: '7' :: '8' :: '1' :: '2' :: '3' :: '4' :: '5' :: '6' :: '7' ::
      '8' :: '9' :: '0' :: [] := rfl
  rw [hd, hg]
  simp only [List.cons_append, List.nil_append]
  rw [isbnSearch]
  have hat : isbnAt ('I' :: 'S' :: 'B' :: 'N' :: ':' :: ' ' :: '9' :: '7' ::
      '8' :: '1' :: '2' :: '3' :: '4' :: '5' :: '6' :: '7' :: '8' :: '9' ::
      '0' :: post) =
      some ('9' :: '7' :: '8' :: '1' :: '2' :: '3' :: '4' :: '5' :: '6' ::
        '7' :: '8' :: '9' :: '0' :: []) := by
    rw [isbnAt]
    rw [if_pos (by decide : ('I'.toLower = 'i'))]
    rw [isbnKw]
    rw [if_pos (by decide :
      ('S'.toLower = 's' && 'B'.toLower = 'b' && 'N'.toLower = 'n') = true)]
    have hdw : List.dropWhile wsOrColon (':' :: ' ' :: '9' :: '7' :: '8' ::
        '1' :: '2' :: '3' :: '4' :: '5' :: '6' :: '7' :: '8' :: '9' :: '0' ::
        post) =
        '9' :: '7' :: '8' :: '1' :: '2' :: '3' :: '4' :: '5' :: '6' :: '7' ::
        '8' :: '9' :: '0' :: post := by
      rw [List.dropWhile_cons_of_pos (by decide), List.dropWhile_cons_of_pos
        (by decide), List.dropWhile_cons_of_neg (by decide)]
    rw [hdw, isbnNum, isbn13At]
    rw [if_pos (by decide : ('9' = '9' && '7' = '7' && ('8' = '8' || '8' = '9')
      && ['1', '2', '3', '4', '5', '6', '7', '8', '9', '0'].all Char.isDigit)
      = true)]
  rw [hat]

lemma ratOfParts_eq (e c : String) (ne nc : Nat)
    (he : natOfDigits e.data = ne) (hc : natOfDigits c.data = nc) :
    ratOfParts e c = (ne : ℚ) + (nc : ℚ) / 100 := by
  rw [ratOfParts, he, hc]

lemma extract_sku_from_url_short {url : String}
    (hlen : (finalSegment url).length ≤ 5) :
    extract_sku_from_url url = none := by
  unfold extract_sku_from_url
  cases hL : (splitChar '/' (stripSlash url).data).getLast? with
  | none => rfl
  | some p =>
    have hp : finalSegment url = p := by
      unfold finalSegment
      rw [List.getLastD_eq_getLast?, hL]
      rfl
    show (if p ≠ [] ∧ 5 < p.length then some (String.mk p) else none) = none
    rw [if_neg]
    rintro ⟨hne, hlt⟩
    rw [hp] at hlen
    omega

/- ------------------------------------------------------------------ -/
/- Claim theorems.                                                     -/
/- ------------------------------------------------------------------ -/

/-- Claim C1, counterexample.  A run whose single link extracts a titled
record that the persistence collaborator rejects (add_book returns no id)
hands the record to persistence (the persist event is in the trace) yet ends
with scraped = 0 and skipped = 0: the skip counter is not incremented, so a
persistence duplicate-key rejection is not treated like a dedup-gate skip,
which would have ended with skipped = 1. -/
theorem c1_skip_counter_counterexample :
    scrape_run envRejected 5 =
      ⟨0, 0, [Ev.nav urlLong, Ev.persist recRejected]⟩ ∧
    (scrape_run envRejected 5).skipped ≠ 1 := by
  constructor
  · decide
  · decide

/-- Claim C1, amended.  When the persistence collaborator rejects an
extracted record (add_book returns no new id), the record was handed over,
the accepted counter is not incremented, the loop continues to the next
link, and the skip counter is also left unchanged (only the dedup-gate path
increments it). -/
theorem c1_persistence_rejection_amended (h : String → Int) (l : LinkEnv)
    (rest : List LinkEnv) (m s k : Nat) (bd : BookData) (hms : ¬ m ≤ s)
    (hgate : extract_sku_from_url l.url = none ∨ l.inDb = false)
    (hb : (scrape_book h l.item l.url).1 = some bd) (ht : ¬ bd.title = "")
    (ha : l.addResult = none) :
    (processLinks h (l :: rest) m s k).scraped =
      (processLinks h rest m s k).scraped ∧
    (processLinks h (l :: rest) m s k).skipped =
      (processLinks h rest m s k).skipped ∧
    Ev.persist (tagRecord bd) ∈ (processLinks h (l :: rest) m s k).trace := by
  have hg := gateHit_false hgate
  rw [pl_reject hms hg hb ht ha]
  refine ⟨by simp, by simp, ?_⟩
  simp

/-- Witness for the amended C1 theorem at a concrete rejected link. -/
theorem c1_persistence_rejection_witness :
    (processLinks (fun _ => 0) [linkRejected] 5 0 0).scraped =
      (processLinks (fun _ => 0) [] 5 0 0).scraped ∧
    (processLinks (fun _ => 0) [linkRejected] 5 0 0).skipped =
      (processLinks (fun _ => 0) [] 5 0 0).skipped ∧
    Ev.persist (tagRecord bdTitled) ∈
      (processLinks (fun _ => 0) [linkRejected] 5 0 0).trace :=
  c1_persistence_rejection_amended (fun _ => 0) linkRejected [] 5 0 0 bdTitled
    (by decide) (Or.inr rfl) (by decide) (by decide) rfl

/-- Claim C2, counterexample.  Two runs with equal accepted counts but skip
counts 1 and 0 return the same value, so the value returned by the
invocation does not contain the skipped count: the run does not return an
accepted/skipped summary, only the accepted count. -/
theorem c2_summary_counterexample :
    scrape_new_arrivals envOneDup 5 = scrape_new_arrivals envNoLinks 5 ∧
    (scrape_run envOneDup 5).skipped = 1 ∧
    (scrape_run envNoLinks 5).skipped = 0 := by
  refine ⟨by decide, by decide, by decide⟩

/-- Claim C2, amended.  The invocation returns exactly the accepted count of
the final crawl state (the skipped count is only logged); in particular the
returned value is a function of the accepted count alone.  Within the
embedding every run is total, so no partial failure can raise. -/
theorem c2_return_amended :
    (∀ (env : RunEnv) (m : Nat),
      scrape_new_arrivals env m = (scrape_run env m).scraped) ∧
    (∀ (env₁ env₂ : RunEnv) (m : Nat),
      (scrape_run env₁ m).scraped = (scrape_run env₂ m).scraped →
      scrape_new_arrivals env₁ m = scrape_new_arrivals env₂ m) :=
  ⟨fun _ _ => rfl, fun _ _ _ hm => hm⟩

/-- Witness for the amended C2 theorem on two concrete runs. -/
theorem c2_return_witness :
    scrape_new_arrivals envOneDup 7 = scrape_new_arrivals envNoLinks 7 :=
  c2_return_amended.2 envOneDup envNoLinks 7 (by decide)

/-- Claim C3 (code defect).  The fallback SKU is a function of the hash of
the URL, and Python str hashing is salted per interpreter process, modeled
by the explicit hash parameter: two runs whose hash functions differ (here
the runs with constant hashes 0 and 1 standing for two process seeds)
derive different identifiers for the same URL, so the synthesized
identifier is not stable across separate runs of the program. -/
theorem c3_fallback_seed_dependent :
    fallback_sku (fun _ => 0) urlPlain = "WOB-0000000" ∧
    fallback_sku (fun _ => 1) urlPlain = "WOB-0000001" ∧
    fallback_sku (fun _ => 0) urlPlain ≠ fallback_sku (fun _ => 1) urlPlain := by
  refine ⟨by decide, by decide, by decide⟩

/-- Claim C4.  For a link whose URL-derived SKU the dedup gate reports as
known, the item-loop step is exactly the remaining loop with the skip
counter incremented (so the item page contributes no events and no counter
changes of its own), and if no other pending link shares the URL, the URL
is never navigated to in the whole remaining loop. -/
theorem c4_dedup_hit_skips_navigation (h : String → Int) (l : LinkEnv)
    (rest : List LinkEnv) (m s k : Nat) (q : String) (hms : ¬ m ≤ s)
    (hq : extract_sku_from_url l.url = some q) (hdb : l.inDb = true) :
    processLinks h (l :: rest) m s k = processLinks h rest m s (k + 1) ∧
    ((∀ l' ∈ rest, l'.url ≠ l.url) →
      Ev.nav l.url ∉ (processLinks h (l :: rest) m s k).trace) := by
  have hg : gateHit l = true := by unfold gateHit; rw [hq]; exact hdb
  refine ⟨pl_skip hms hg, fun hU hmem => ?_⟩
  rw [pl_skip hms hg] at hmem
  obtain ⟨l', hl', hu⟩ := pl_nav_mem hmem
  exact hU l' hl' hu

/-- Witness for the C4 theorem at a concrete known link. -/
theorem c4_dedup_hit_witness :
    processLinks (fun _ => 0) [linkDup] 5 0 0 =
      processLinks (fun _ => 0) [] 5 0 1 ∧
    ((∀ l' ∈ ([] : List LinkEnv), l'.url ≠ linkDup.url) →
      Ev.nav linkDup.url ∉ (processLinks (fun _ => 0) [linkDup] 5 0 0).trace) :=
  c4_dedup_hit_skips_navigation (fun _ => 0) linkDup [] 5 0 0 "abcdef9"
    (by decide) (by decide) rfl

/-- Claim C5.  An item page without a truthy title yields no record from the
item extractor, and every record handed to the persistence collaborator in
any run has a non-empty title. -/
theorem c5_missing_title_never_persisted :
    (∀ (h : String → Int) (env : ItemEnv) (url : String),
      env.title = none ∨ env.title = some "" →
      (scrape_book h env url).1 = none) ∧
    (∀ (env : RunEnv) (m : Nat) (bd : BookData),
      Ev.persist bd ∈ (scrape_run env m).trace → bd.title ≠ "") := by
  constructor
  · intro h env url hti
    by_cases hp : env.pageOk = false
    · simp [scrape_book, hp]
    · by_cases hn : env.navOk = false
      · simp [scrape_book, scrape_book_data, hp, hn]
      · by_cases hrr : env.raises
        · simp [scrape_book, scrape_book_data, hp, hn, hrr]
        · rcases hti with hti | hti <;>
            simp [scrape_book, scrape_book_data, hp, hn, hrr, hti]
  · intro env m bd hmem
    exact run_persist_title hmem

/-- Witness for the C5 theorem at a concrete title-less page. -/
theorem c5_missing_title_witness :
    (scrape_book (fun _ => 0) itemPlain urlLong).1 = none :=
  c5_missing_title_never_persisted.1 (fun _ => 0) itemPlain urlLong (Or.inl rfl)

/-- Claim C6.  The accepted count of any run never exceeds the budget, and
an item loop over links that all pass the gate, extract a titled record and
are accepted by persistence reaches exactly the budget and is identical to
the loop over only the first budget-many links: the remaining links are
never processed. -/
theorem c6_budget_respected :
    (∀ (env : RunEnv) (m : Nat), scrape_new_arrivals env m ≤ m) ∧
    (∀ (h : String → Int) (ls : List LinkEnv) (m s k : Nat),
      ls.all (goodLink h) = true → s ≤ m → m ≤ s + ls.length →
      (processLinks h ls m s k).scraped = m ∧
      processLinks h ls m s k = processLinks h (ls.take (m - s)) m s k) := by
  constructor
  · intro env m
    unfold scrape_new_arrivals scrape_run
    by_cases hb : env.browserOk = false
    · simp [hb]
    · by_cases hp : env.newPageOk = false
      · simp [hb, hp]
      · simp only [hb, hp, if_false]
        simpa [hb, hp] using pp_scraped_le env.pages 0 0 (Nat.zero_le m)
  · exact fun h ls m s k hg hs hl => pl_exact ls m s k hg hs hl

/-- Witness for the C6 theorem: two fully succeeding links against a budget
of one. -/
theorem c6_budget_witness :
    (processLinks (fun _ => 0) [linkGoodA, linkGoodB] 1 0 0).scraped = 1 ∧
    processLinks (fun _ => 0) [linkGoodA, linkGoodB] 1 0 0 =
      processLinks (fun _ => 0) ([linkGoodA, linkGoodB].take (1 - 0)) 1 0 0 :=
  c6_budget_respected.2 (fun _ => 0) [linkGoodA, linkGoodB] 1 0 0
    (by decide) (by decide) (by decide)

/-- Claim C7.  The price parser yields 12.34 on both the currency-prefixed
and the bare two-decimal input, 15.00 on a bare integer (absent cents group
defaults to 00), none on an absent input, and none on any text containing
no digit; the outputs are plain numbers, so no currency symbol remains. -/
theorem c7_price_extractor :
    extract_price (some "€12.34") = some (1234 / 100 : ℚ) ∧
    extract_price (some "12.34") = some (1234 / 100 : ℚ) ∧
    extract_price (some "15") = some (1500 / 100 : ℚ) ∧
    extract_price none = none ∧
    (∀ t : String, t.data.all (fun c => !c.isDigit) = true →
      extract_price (some t) = none) := by
  have e1 : extract_price (some "€12.34") = some (ratOfParts "12" "34") := rfl
  have e2 : extract_price (some "12.34") = some (ratOfParts "12" "34") := rfl
  have e3 : extract_price (some "15") = some (ratOfParts "15" "00") := rfl
  refine ⟨?_, ?_, ?_, rfl, ?_⟩
  · rw [e1, ratOfParts_eq "12" "34" 12 34 (by decide) (by decide)]
    norm_num
  · rw [e2, ratOfParts_eq "12" "34" 12 34 (by decide) (by decide)]
    norm_num
  · rw [e3, ratOfParts_eq "15" "00" 15 0 (by decide) (by decide)]
    norm_num
  intro t ht
  by_cases he : t = ""
  · simp [extract_price, he]
  · simp [extract_price, he, (no_digit_search t.data ht).1,
      (no_digit_search t.data ht).2]

/-- Witness for the C7 theorem on a concrete digit-free text. -/
theorem c7_price_witness : extract_price (some "no price here") = none :=
  c7_price_extractor.2.2.2.2 "no price here" (by decide)

/-- Claim C8, counterexample.  A details text that contains the canonical
sentence ISBN: 9781234567890 but is preceded by an earlier ISBN-like token
makes the extractor yield the earlier ten-character match, not the
canonical thirteen-digit one, refuting the claim for pages that merely
contain the canonical sentence. -/
theorem c8_first_match_counterexample :
    itemTwoIsbn.detailsText =
      some ("ISBN: 1234567890 and " ++ "ISBN: 9781234567890") ∧
    extract_isbn itemTwoIsbn = some "1234567890" ∧
    extract_isbn itemTwoIsbn ≠ some "9781234567890" := by
  refine ⟨by decide, by decide, by decide⟩

/-- Claim C8, amended.  Every non-null ISBN result consists of digits and
uppercase X only, and the extractor yields 9781234567890 for every page
whose details text is the canonical sentence preceded only by text without
the letter i (hence without any earlier keyword match) and followed by
anything. -/
theorem c8_isbn_extractor_amended :
    (∀ (env : ItemEnv) (r : String), extract_isbn env = some r →
      r.data.all (fun c => c.isDigit || c = 'X') = true) ∧
    (∀ (env : ItemEnv) (d : String) (pre post : List Char),
      env.isbnEvalFails = false → env.detailsText = some d →
      d.data = pre ++ "ISBN: 9781234567890".data ++ post →
      pre.all (fun c => !(c.toLower = 'i')) = true →
      extract_isbn env = some "9781234567890") := by
  constructor
  · intro env r hr
    unfold extract_isbn at hr
    by_cases hf : env.isbnEvalFails
    · simp [hf] at hr
    · simp only [hf, if_false, Bool.false_eq_true] at hr
      obtain ⟨a, ha, hstrip⟩ := Option.map_eq_some'.1 hr
      rw [← hstrip]
      unfold stripNonIsbn
      rw [List.all_eq_true]
      intro c hc
      exact (List.mem_filter.1 hc).2
  · intro env d pre post hf hd hdata hpre
    have h1 : isbnScan d = some "9781234567890" := by
      unfold isbnScan
      rw [hdata, List.append_assoc, isbnSearch_append pre _ hpre,
        isbnSearch_canon post]
      rfl
    have h2 : isbnRaw env = some "9781234567890" := by
      simp [isbnRaw, hd, h1]
    have h3 : extract_isbn env = (isbnRaw env).map stripNonIsbn := by
      simp [extract_isbn, hf]
    rw [h3, h2]
    decide

/-- Witness for the amended C8 theorem at a concrete page. -/
theorem c8_isbn_extractor_witness :
    extract_isbn itemPreIsbn = some "9781234567890" :=
  c8_isbn_extractor_amended.2 itemPreIsbn "Code ISBN: 9781234567890 end"
    "Code ".data " end".data rfl rfl (by decide) (by decide)

/-- Claim C9.  A link that reaches the extractor (the gate does not skip it)
and yields no record (failed item navigation or a caught extraction
exception) changes neither counter: the loop outcome equals that of the
remaining links, so no item-level failure aborts the run. -/
theorem c9_item_failure_isolated (h : String → Int) (l : LinkEnv)
    (rest : List LinkEnv) (m s k : Nat) (hms : ¬ m ≤ s)
    (hgate : extract_sku_from_url l.url = none ∨ l.inDb = false)
    (hf : (scrape_book h l.item l.url).1 = none) :
    (processLinks h (l :: rest) m s k).scraped =
      (processLinks h rest m s k).scraped ∧
    (processLinks h (l :: rest) m s k).skipped =
      (processLinks h rest m s k).skipped := by
  have hg := gateHit_false hgate
  rw [pl_fail hms hg hf]
  exact ⟨by simp, by simp⟩

/-- Witness for the C9 theorem at a concrete failing link. -/
theorem c9_item_failure_witness :
    (processLinks (fun _ => 0) [linkNavFail] 5 0 0).scraped =
      (processLinks (fun _ => 0) [] 5 0 0).scraped ∧
    (processLinks (fun _ => 0) [linkNavFail] 5 0 0).skipped =
      (processLinks (fun _ => 0) [] 5 0 0).skipped :=
  c9_item_failure_isolated (fun _ => 0) linkNavFail [] 5 0 0
    (by decide) (Or.inr rfl) (by decide)

/-- Claim C10.  The URL SKU tier yields nothing when the final path segment
has at most 5 characters; such a link is always navigated to (when its page
opens), and its processing is independent of the dedup-gate verdict — the
pre-visit dedup check is skipped entirely, even when the identifier later
resolved on the page is already in the database. -/
theorem c10_short_segment_skips_gate :
    (∀ url : String, (finalSegment url).length ≤ 5 →
      extract_sku_from_url url = none) ∧
    (∀ (h : String → Int) (l : LinkEnv) (rest : List LinkEnv) (m s k : Nat),
      ¬ m ≤ s → (finalSegment l.url).length ≤ 5 → l.item.pageOk = true →
      Ev.nav l.url ∈ (processLinks h (l :: rest) m s k).trace) ∧
    (∀ (h : String → Int) (l : LinkEnv) (rest : List LinkEnv) (m s k : Nat)
      (b : Bool), (finalSegment l.url).length ≤ 5 →
      processLinks h ({ l with inDb := b } :: rest) m s k =
        processLinks h (l :: rest) m s k) := by
  refine ⟨fun url hl => extract_sku_from_url_short hl, ?_, ?_⟩
  · intro h l rest m s k hms hseg hpage
    have hg : gateHit l = false :=
      gateHit_false (Or.inl (extract_sku_from_url_short hseg))
    have hnav : Ev.nav l.url ∈ (scrape_book h l.item l.url).2 := by
      simp [scrape_book, hpage]
    cases hb : (scrape_book h l.item l.url).1 with
    | none =>
      rw [pl_fail hms hg hb]
      exact List.mem_append_left _ hnav
    | some bd =>
      by_cases ht : bd.title = ""
      · rw [pl_titleEmpty hms hg hb ht]
        exact List.mem_append_left _ hnav
      · cases ha : l.addResult with
        | none =>
          rw [pl_reject hms hg hb ht ha]
          exact List.mem_append_left _ (List.mem_append_left _ hnav)
        | some i =>
          rw [pl_accept hms hg hb ht ha]
          exact List.mem_append_left _ (List.mem_append_left _ hnav)
  · intro h l rest m s k b hseg
    have hn := extract_sku_from_url_short hseg
    by_cases hms : m ≤ s
    · rw [pl_stop _ _ hms, pl_stop _ _ hms]
    · have hg1 : gateHit { l with inDb := b } = false :=
        gateHit_false (Or.inl hn)
      have hg2 : gateHit l = false := gateHit_false (Or.inl hn)
      rw [processLinks, processLinks]
      simp [hms, hg1, hg2]

/-- Witness for the C10 theorem at a concrete short-segment link whose page
carries a known SKU. -/
theorem c10_short_segment_witness :
    Ev.nav linkShortSeg.url ∈
      (processLinks (fun _ => 0) [linkShortSeg] 5 0 0).trace :=
  c10_short_segment_skips_gate.2.1 (fun _ => 0) linkShortSeg [] 5 0 0
    (by decide) (by decide) rfl

end WobScraper
